import Mathlib

/-!
Verification development for the Eliot Downloader backend (`main.py`).

The Python backend is shallowly embedded: every pure helper of `main.py`
becomes a Lean function over `String`/`ℤ`/`ℚ`, the mutable
`DownloadProgress` object becomes an immutable record threaded through
explicit update functions, the global `download_sessions` dict becomes an
association list, and the external yt-dlp library together with the file
system is modelled by explicitly quantified inputs (`LibraryRun`,
`Storage`): a run of the library is a list of progress-hook payloads
followed by either a normal `ExtractInfo` result or a raised exception
message, so "the worker never raises" is rendered by the totality of the
embedded worker on every such run.

Python string primitives (`str.replace`, `str.lower`, `str.startswith`,
`str.endswith`, slicing) are given executable character-list definitions
(`sReplace`, `sToLower`, ...) so that every embedded function evaluates by
kernel reduction on concrete inputs.

Python floats are modelled by exact rationals.  This is faithful for the
code at hand: `fmt_bytes` only ever divides by 1024 (an exponent shift,
exact in binary floating point) and the progress percentage is a single
division whose operands are integral byte counts, so all float values that
the source computes are exactly the rationals computed here (for byte
counts below 2^53, which covers every realizable download size).
-/

/-- Python's substring test `needle in haystack` (`str.__contains__`). -/
def pyIn (needle haystack : String) : Bool :=
  haystack.toList.tails.any (fun t => needle.toList.isPrefixOf t)

/-- Worker for `sReplace`: replace non-overlapping occurrences of `pat` left
to right, skipping `pat.length` characters at each match.  Each step consumes
at least one character, so `fuel = length of the input` never runs out. -/
def replaceGo (pat rep : List Char) : Nat → List Char → List Char
  | 0, l => l
  | _ + 1, [] => []
  | fuel + 1, c :: rest =>
    if pat.isPrefixOf (c :: rest) && !pat.isEmpty then
      rep ++ replaceGo pat rep fuel ((c :: rest).drop pat.length)
    else c :: replaceGo pat rep fuel rest

/-- Python's `s.replace(pat, rep)` for non-empty `pat` (every call site in
`main.py` passes a non-empty pattern). -/
def sReplace (s pat rep : String) : String :=
  String.mk (replaceGo pat.toList rep.toList s.toList.length s.toList)

/-- Python's `s.lower()` (ASCII case folding, which covers all call sites). -/
def sToLower (s : String) : String := String.mk (s.toList.map Char.toLower)

/-- Python's `s.startswith(pre)`. -/
def sStartsWith (s pre : String) : Bool := pre.toList.isPrefixOf s.toList

/-- Python's `s.endswith(post)`. -/
def sEndsWith (s post : String) : Bool := post.toList.isSuffixOf s.toList

/-- Python's slice `s[:n]`. -/
def sTake (s : String) (n : Nat) : String := String.mk (s.toList.take n)

/-- Python's slice `s[n:]`. -/
def sDrop (s : String) (n : Nat) : String := String.mk (s.toList.drop n)

/-- Python's `os.path.basename` on POSIX paths: the part after the last slash. -/
def basename (p : String) : String :=
  String.mk ((p.toList.reverse.takeWhile (fun c => !(c == '/'))).reverse)

/-- Python's `a or b` on two optional integers: `a` unless `a` is `None` or `0`. -/
def pyOrInt (a b : Option ℤ) : Option ℤ :=
  match a with
  | some n => if n = 0 then b else some n
  | none => b

/-- The mutable per-job status object of `main.py` (`class DownloadProgress`),
with the field defaults of its `__init__` captured by `initProgress`. -/
structure DownloadProgress where
  session_id : String
  status : String
  progress : ℚ
  speed : String
  eta : String
  file_size : String
  downloaded : String
  error : Option String
  filename : String
  filepath : String
  cookie_file : Option String
deriving DecidableEq, Repr

/-- `DownloadProgress.__init__(sid)`. -/
def initProgress (sid : String) : DownloadProgress :=
  { session_id := sid
    status := "queued"
    progress := 0
    speed := "N/A"
    eta := "N/A"
    file_size := "N/A"
    downloaded := "0 B"
    error := none
    filename := ""
    filepath := ""
    cookie_file := none }

/-- One progress payload `d` handed to `_progress_hook` by yt-dlp.  Each field
models one `d.get(...)` key; `none` is an absent key (or Python `None`). -/
structure HookEvent where
  status : Option String
  total_bytes : Option ℤ
  total_bytes_estimate : Option ℤ
  downloaded_bytes : Option ℤ
  speed_str : Option String
  eta_str : Option String
  filename : Option String
deriving DecidableEq, Repr

/-- Round `10 * x` to the nearest integer, ties to even: the integer whose
tenth Python's `f"{x:.1f}"` prints for a nonnegative exact value `x`. -/
def pyRound1 (x : ℚ) : ℤ :=
  if 10 * x - (⌊10 * x⌋ : ℚ) < 1 / 2 then ⌊10 * x⌋
  else if 1 / 2 < 10 * x - (⌊10 * x⌋ : ℚ) then ⌊10 * x⌋ + 1
  else if ⌊10 * x⌋ % 2 = 0 then ⌊10 * x⌋ else ⌊10 * x⌋ + 1

/-- Python's `f"{x:.1f}"` for nonnegative `x`: one digit after the point. -/
def fmtOneDec (x : ℚ) : String :=
  toString (pyRound1 x / 10) ++ "." ++ toString (pyRound1 x % 10)

/-- The unit loop of `fmt_bytes`: divide by 1024 until below 1024, falling
through to `"PB"` when the unit list is exhausted. -/
def fmtLoop (x : ℚ) : List String → String
  | [] => fmtOneDec x ++ " PB"
  | u :: us => if x < 1024 then fmtOneDec x ++ " " ++ u else fmtLoop (x / 1024) us

/-- `fmt_bytes` of `main.py`; `none` is Python `None`, and `not n or n <= 0`
collapses to `n ≤ 0` on integers. -/
def fmt_bytes (n : Option ℤ) : String :=
  match n with
  | none => "N/A"
  | some m => if m ≤ 0 then "N/A" else fmtLoop (m : ℚ) ["B", "KB", "MB", "GB", "TB"]

/-- Modelled from the spec: the display unit for a byte count's binary
(1024-based) magnitude range, saturating at the formatter's final `"PB"`
fallback beyond the `"TB"` range ("through at least B, KB, MB, GB, TB"). -/
def unitFor (m : ℤ) : String :=
  if m < 1024 then "B"
  else if m < 1024 ^ 2 then "KB"
  else if m < 1024 ^ 3 then "MB"
  else if m < 1024 ^ 4 then "GB"
  else if m < 1024 ^ 5 then "TB"
  else "PB"

/-- One value of the `PLATFORM_CONFIGS` table: the two optional header keys
are present only for the entry that carries them. -/
structure PlatformConfig where
  requires_cookies : Bool
  description : String
  user_agent : Option String
  referer : Option String
deriving DecidableEq, Repr

/-- The static `PLATFORM_CONFIGS` dict of `main.py`, in insertion order. -/
def PLATFORM_CONFIGS : List (String × PlatformConfig) :=
  [("agasobanuyefilms.com",
    { requires_cookies := true
      description := "Rwandan movie streaming platform"
      user_agent := some "Mozilla/5.0"
      referer := some "https://agasobanuyefilms.com/" }),
   ("youtube.com", { requires_cookies := false, description := "YouTube", user_agent := none, referer := none }),
   ("youtu.be", { requires_cookies := false, description := "YouTube", user_agent := none, referer := none }),
   ("vimeo.com", { requires_cookies := false, description := "Vimeo", user_agent := none, referer := none }),
   ("instagram.com", { requires_cookies := false, description := "Instagram (videos, images, reels)", user_agent := none, referer := none }),
   ("pinterest.com", { requires_cookies := false, description := "Pinterest images", user_agent := none, referer := none })]

/-- Worker for `netloc`: the characters after the first `"://"`. -/
def afterScheme : List Char → Option (List Char)
  | [] => none
  | c :: rest =>
    if [':', '/', '/'].isPrefixOf (c :: rest) then some ((c :: rest).drop 3)
    else afterScheme rest

/-- Modelled from the external `urllib.parse.urlparse(url).netloc` for
absolute URLs: the text between the first `"://"` and the next `/`, `?`
or `#` (empty when the URL has no scheme-separated authority part). -/
def netloc (url : String) : String :=
  match afterScheme url.toList with
  | some t => String.mk (t.takeWhile (fun c => !(c == '/' || c == '?' || c == '#')))
  | none => ""

/-- Leading `"www."` stripping performed by `get_platform_config`. -/
def strip_www (d : String) : String :=
  if sStartsWith d "www." then sDrop d 4 else d

/-- `get_platform_config` of `main.py`: lowercase the host, strip a leading
`"www."`, return the first table entry whose key is a suffix of the result. -/
def get_platform_config (url : String) : Option PlatformConfig :=
  if url = "" then none
  else
    (PLATFORM_CONFIGS.find? (fun kv => sEndsWith (strip_www (sToLower (netloc url))) kv.1)).map Prod.snd

/-- Stated from the spec's words, for comparison with `get_platform_config`:
per-site configuration is resolved by matching the URL's host against the
static platform table case-insensitively, with a leading `"www."` stripped
before suffix matching. -/
def spec_domain_lookup (host : String) : Option PlatformConfig :=
  (PLATFORM_CONFIGS.find? (fun kv =>
    sEndsWith (if sStartsWith (sToLower host) "www." then sDrop (sToLower host) 4 else sToLower host) kv.1)).map Prod.snd

/-- The digit extraction of `build_video_format`:
`"".join(ch for ch in quality if ch.isdigit())`. -/
def quality_digits (quality : String) : String :=
  String.mk (quality.toList.filter Char.isDigit)

/-- `build_video_format` of `main.py`.  The impure `has_ffmpeg()` capability
probe is passed in as a parameter; note that the source returns the same
selector in both capability branches. -/
def build_video_format (has_ffmpeg : Bool) (quality : String) : String :=
  if quality = "best" then "best"
  else if quality_digits quality = "" then "best"
  else if !has_ffmpeg then "best[height<=" ++ quality_digits quality ++ "]"
  else "best[height<=" ++ quality_digits quality ++ "]"

/-- The filename computation of `save_uploaded_cookie` in `main.py`: path
separators become underscores and a `".txt"` suffix is appended when absent.
The write to disk is I/O outside the embedding; this is the stored name. -/
def save_uploaded_cookie_name (filename : String) : String :=
  let safe := sReplace (sReplace filename "/" "_") "\\" "_"
  if sEndsWith safe ".txt" then safe else safe ++ ".txt"

/-- The body of `_progress_hook(d, session_id)` once the session's record has
been found: the event-driven update of one `DownloadProgress`.  The lookup
and missing-session guard live in `progress_hook` below. -/
def hookUpdate (prog : DownloadProgress) (d : HookEvent) : DownloadProgress :=
  if d.status.getD "" = "downloading" then
    let total := pyOrInt d.total_bytes d.total_bytes_estimate
    let dl := d.downloaded_bytes.getD 0
    let prog1 : DownloadProgress := { prog with
      status := "downloading"
      progress :=
        match total with
        | some t => if 0 < t then (dl : ℚ) / (t : ℚ) * 100 else prog.progress
        | none => prog.progress
      file_size := fmt_bytes total
      downloaded := fmt_bytes (some dl)
      speed := d.speed_str.getD "N/A"
      eta := d.eta_str.getD "N/A" }
    if d.filename.getD "" = "" then prog1
    else { prog1 with filename := basename (d.filename.getD "") }
  else if d.status.getD "" = "finished" then
    let prog1 : DownloadProgress := { prog with status := "processing", progress := 100 }
    if d.filename.getD "" = "" then prog1
    else { prog1 with filepath := d.filename.getD "", filename := basename (d.filename.getD "") }
  else if d.status.getD "" = "error" then
    { prog with status := "error", error := some "Download error" }
  else prog

/-- The error-message classifier of `download_job`'s `except` block:
substring heuristics over the lowercased exception text. -/
def classifyMsg (e : String) : String :=
  if pyIn "age-restricted" (sToLower e) || pyIn "sign in" (sToLower e) then
    "Age-restricted content. Cookie file may be required."
  else if pyIn "private" (sToLower e) then
    "Private content - check URL and permissions."
  else if pyIn "unavailable" (sToLower e) then
    "Content unavailable or region-blocked."
  else if pyIn "format" (sToLower e) then
    "No suitable format found. Try different quality setting."
  else "Download failed: " ++ e

/-- The `except` block of `download_job`: terminal error state with the
classified message. -/
def classify (e : String) (prog : DownloadProgress) : DownloadProgress :=
  { prog with status := "error", error := some (classifyMsg e) }

/-- The `info` dict returned by `ydl.extract_info`, restricted to the keys
`download_job` reads (`info.get("title", ...)`, `info.get("id", ...)`). -/
structure ExtractInfo where
  title : Option String
  id : Option String
deriving DecidableEq, Repr

/-- One run of the external yt-dlp library on behalf of one job: the hook
payloads it emits (in order), then either a normal return carrying the
extracted info or a raised exception carrying its message, together with
the path `ydl.prepare_filename(info)` reports for the output file. -/
structure LibraryRun where
  events : List HookEvent
  outcome : Except String ExtractInfo
  target : String

/-- The persistent-storage collaborator: the set of paths for which
`os.path.exists` holds, the names listed by `DOWNLOAD_DIR.glob("*")` in
glob order, and the download directory's own path. -/
structure Storage where
  existing : List String
  dirFiles : List String
  dir : String

/-- The extension-substitution probe list of `download_job`. -/
def candidates (target : String) : List String :=
  [target,
   sReplace target ".webm" ".mp4",
   sReplace target ".mkv" ".mp4",
   sReplace target ".m4a" ".mp3"]

/-- The candidate loop of `download_job`: the first probed substitution that
exists on storage becomes the record's file, overwriting any earlier value. -/
def resolveCandidates (target : String) (st : Storage) (prog : DownloadProgress) : DownloadProgress :=
  match (candidates target).find? (fun c => st.existing.contains c) with
  | some c => { prog with filepath := c, filename := basename c }
  | none => prog

/-- The `title` truncation `info.get("title", "download")[:50]`. -/
def title50 (info : ExtractInfo) : String :=
  sTake (info.title.getD "download") 50

/-- The directory-scan condition of `download_job`:
`title.lower() in file.name.lower() or info.get("id", "") in file.name`. -/
def scanMatch (info : ExtractInfo) (name : String) : Bool :=
  pyIn (sToLower (title50 info)) (sToLower name) || pyIn (info.id.getD "") name

/-- The fallback directory scan of `download_job`, entered only while the
record still has no file path. -/
def resolveScan (info : ExtractInfo) (st : Storage) (prog : DownloadProgress) : DownloadProgress :=
  if prog.filepath = "" then
    match st.dirFiles.find? (scanMatch info) with
    | some f => { prog with filepath := st.dir ++ "/" ++ f, filename := f }
    | none => prog
  else prog

/-- The body of `download_job` once the session's record has been found:
set `status = "starting"`, let the library run (its hook events fold over
the record), then either resolve the output file and complete, or convert
the failure — including the internal `"Downloaded file not found"` raise —
into terminal error state.  Totality of this function renders the contract
that the worker never raises to its caller. -/
def downloadJobRecord (prog0 : DownloadProgress) (run : LibraryRun) (st : Storage) : DownloadProgress :=
  let prog : DownloadProgress := { prog0 with status := "starting" }
  match run.outcome with
  | Except.error e => classify e (run.events.foldl hookUpdate prog)
  | Except.ok info =>
    let p1 := run.events.foldl hookUpdate prog
    let p2 := resolveCandidates run.target st p1
    let p3 := resolveScan info st p2
    if p3.filepath = "" then classify "Downloaded file not found" p3
    else { p3 with status := "completed" }

/-- The global `download_sessions` dict, as an association list. -/
abbrev Registry := List (String × DownloadProgress)

/-- In-place mutation of one session's record, as entry replacement. -/
def updateReg (reg : Registry) (sid : String) (r : DownloadProgress) : Registry :=
  reg.map (fun p => if p.1 = sid then (p.1, r) else p)

/-- `_progress_hook(d, session_id)` of `main.py` at registry level:
`download_sessions.get(session_id)` then the guarded update. -/
def progress_hook (d : HookEvent) (sid : String) (reg : Registry) : Registry :=
  match List.lookup sid reg with
  | none => reg
  | some prog => updateReg reg sid (hookUpdate prog d)

/-- `download_job` of `main.py` at registry level.  The option bundle built
from `url`, `media`, `quality` and `cookie_file` is consumed only by the
external library, whose behaviour is the explicitly quantified `run`. -/
def download_job (url media quality sid : String) (cookie_file : Option String)
    (run : LibraryRun) (st : Storage) (reg : Registry) : Registry :=
  match List.lookup sid reg with
  | none => reg
  | some prog =>
    let _ := (url, media, quality, cookie_file)
    updateReg reg sid (downloadJobRecord prog run st)

/-- C7: every quality string that contains no digit characters and is not
the literal "best" makes the video Option Builder fall back to the
unconstrained "best" selector. -/
theorem c7_no_digit_quality_best (has_ffmpeg : Bool) (q : String)
    (hd : ∀ c ∈ q.toList, c.isDigit = false) (hb : q ≠ "best") :
    build_video_format has_ffmpeg q = "best" := by
  have hq : quality_digits q = "" := by
    unfold quality_digits
    have h0 : q.toList.filter Char.isDigit = [] :=
      List.filter_eq_nil_iff.mpr (fun c hc => by simp [hd c hc])
    rw [h0]
  unfold build_video_format
  rw [if_neg hb, if_pos hq]

theorem c7_no_digit_quality_best_witness :
    build_video_format true "low" = "best" :=
  c7_no_digit_quality_best true "low" (by decide) (by decide)

/-- C9: saving an uploaded cookie normalizes both path separators to
underscores and enforces a single ".txt" suffix: "my/cookie\\name" is
stored as "my_cookie_name.txt", a name already ending in ".txt" gets no
second suffix, and any other name gets the suffix appended exactly once. -/
theorem c9_cookie_name_normalization :
    save_uploaded_cookie_name "my/cookie\\name" = "my_cookie_name.txt"
    ∧ save_uploaded_cookie_name "cookies.txt" = "cookies.txt"
    ∧ (∀ f, sEndsWith (sReplace (sReplace f "/" "_") "\\" "_") ".txt" = true →
        save_uploaded_cookie_name f = sReplace (sReplace f "/" "_") "\\" "_")
    ∧ (∀ f, sEndsWith (sReplace (sReplace f "/" "_") "\\" "_") ".txt" = false →
        save_uploaded_cookie_name f = sReplace (sReplace f "/" "_") "\\" "_" ++ ".txt") := by
  refine ⟨by decide, by decide, ?_, ?_⟩
  · intro f h; unfold save_uploaded_cookie_name; simp [h]
  · intro f h; unfold save_uploaded_cookie_name; simp [h]

theorem c9_cookie_name_normalization_witness :
    save_uploaded_cookie_name "a.txt" = "a.txt" ∧ save_uploaded_cookie_name "b" = "b.txt" :=
  ⟨by rw [c9_cookie_name_normalization.2.2.1 "a.txt" (by decide)]; decide,
   by rw [c9_cookie_name_normalization.2.2.2 "b" (by decide)]; decide⟩

/-- C3 counterexample: for the quality "720p" the builder returns the
single-stream selector "best[height<=720]" whether or not a merger
(FFmpeg) is available.  It is not the unconstrained "best" that the claim
promises for the no-merger case, and it contains neither a "+" combined
video+audio request nor a "/" fallback alternative, refuting the claimed
three-level preference chain. -/
theorem c3_counterexample :
    build_video_format false "720p" = "best[height<=720]"
    ∧ build_video_format false "720p" ≠ "best"
    ∧ build_video_format true "720p" = "best[height<=720]"
    ∧ pyIn "+" (build_video_format true "720p") = false
    ∧ pyIn "/" (build_video_format true "720p") = false := by decide

/-- C3 amended: for every quality string other than "best" that contains at
least one digit, the video Option Builder produces the single best-stream
selector constrained to the extracted height, regardless of whether a
post-processing merger is available; no combined-stream preference and no
fallback chain is ever emitted. -/
theorem c3_single_stream_selector (has_ffmpeg : Bool) (q : String)
    (hb : q ≠ "best") (hd : quality_digits q ≠ "") :
    build_video_format has_ffmpeg q = "best[height<=" ++ quality_digits q ++ "]" := by
  unfold build_video_format
  rw [if_neg hb, if_neg hd]
  cases has_ffmpeg <;> rfl

theorem c3_single_stream_selector_witness :
    build_video_format true "720p" = "best[height<=" ++ quality_digits "720p" ++ "]" :=
  c3_single_stream_selector true "720p" (by decide) (by decide)

/-- C8: per-site configuration lookup matches the URL's host against the
static platform table case-insensitively with a leading "www." stripped
before suffix matching — "https://WWW.YouTube.com/x" resolves to the
youtube.com entry, the lookup agrees with the spec-worded host-matching
function on every non-empty URL, and a host matching no table entry yields
no extra configuration. -/
theorem c8_platform_lookup :
    get_platform_config "https://WWW.YouTube.com/x" =
      some { requires_cookies := false, description := "YouTube", user_agent := none, referer := none }
    ∧ (∀ url, url ≠ "" → get_platform_config url = spec_domain_lookup (netloc url))
    ∧ (∀ url, (∀ kv ∈ PLATFORM_CONFIGS, sEndsWith (strip_www (sToLower (netloc url))) kv.1 = false) →
        get_platform_config url = none) := by
  refine ⟨by decide, ?_, ?_⟩
  · intro url h
    simp only [get_platform_config, spec_domain_lookup, strip_www]
    rw [if_neg h]
  · intro url hno
    by_cases hu : url = ""
    · simp [get_platform_config, hu]
    · have hfind : PLATFORM_CONFIGS.find?
          (fun kv => sEndsWith (strip_www (sToLower (netloc url))) kv.1) = none :=
        List.find?_eq_none.mpr (fun kv hkv => by simp [hno kv hkv])
      simp [get_platform_config, hu, hfind]

theorem c8_platform_lookup_witness :
    get_platform_config "https://sub.x.example/p" = none
    ∧ get_platform_config "https://youtu.be/abc" = spec_domain_lookup (netloc "https://youtu.be/abc") :=
  ⟨c8_platform_lookup.2.2 "https://sub.x.example/p" (by decide),
   c8_platform_lookup.2.1 "https://youtu.be/abc" (by decide)⟩

/-- C10: invoking the Progress Hook Adapter or the Download Worker with a
session identifier absent from the Session Registry is a no-op at the
registry level: the registry is returned unchanged (no exception is raised
by totality, no entry is added, and every existing record is untouched). -/
theorem c10_missing_session_noop (reg : Registry) (sid : String) (d : HookEvent)
    (url media quality : String) (cookie_file : Option String) (run : LibraryRun) (st : Storage)
    (h : List.lookup sid reg = none) :
    progress_hook d sid reg = reg ∧ download_job url media quality sid cookie_file run st reg = reg := by
  constructor
  · unfold progress_hook; rw [h]
  · unfold download_job; rw [h]

theorem c10_missing_session_noop_witness :
    progress_hook
      { status := some "downloading", total_bytes := none, total_bytes_estimate := none,
        downloaded_bytes := none, speed_str := none, eta_str := none, filename := none }
      "b" [("a", initProgress "a")] = [("a", initProgress "a")]
    ∧ download_job "u" "video" "best" "b" none
      { events := [], outcome := Except.error "boom", target := "" }
      { existing := [], dirFiles := [], dir := "" }
      [("a", initProgress "a")] = [("a", initProgress "a")] :=
  c10_missing_session_noop [("a", initProgress "a")] "b" _ "u" "video" "best" none _ _ (by decide)

/-- C1 counterexample: the hook adapter of the source has no terminal-state
guard — a record in the terminal "completed" state is moved to
"downloading" by a downloading event, and a record in the terminal "error"
state is moved to "processing" by a finished event, so terminal states are
overwritten by later events, refuting the claim. -/
theorem c1_counterexample :
    (hookUpdate { initProgress "s" with status := "completed" }
      { status := some "downloading", total_bytes := none, total_bytes_estimate := none,
        downloaded_bytes := none, speed_str := none, eta_str := none, filename := none }).status
      = "downloading"
    ∧ (hookUpdate { initProgress "s" with status := "error" }
      { status := some "finished", total_bytes := none, total_bytes_estimate := none,
        downloaded_bytes := none, speed_str := none, eta_str := none, filename := none }).status
      = "processing" := by decide

/-- C1 amended: the Progress Hook Adapter does not protect terminal states.
A "downloading"/"finished"/"error" event always sets the record's status to
"downloading"/"processing"/"error" respectively, regardless of the current
(possibly terminal) status; only an event with any other status string
leaves the record entirely unchanged. -/
theorem c1_hook_overwrites_any_status (prog : DownloadProgress) (d : HookEvent) :
    (d.status.getD "" = "downloading" → (hookUpdate prog d).status = "downloading")
    ∧ (d.status.getD "" = "finished" → (hookUpdate prog d).status = "processing")
    ∧ (d.status.getD "" = "error" → (hookUpdate prog d).status = "error")
    ∧ (d.status.getD "" ≠ "downloading" → d.status.getD "" ≠ "finished" →
        d.status.getD "" ≠ "error" → hookUpdate prog d = prog) := by
  refine ⟨?_, ?_, ?_, ?_⟩
  · intro h; simp only [hookUpdate, h]; simp; split <;> rfl
  · intro h; simp only [hookUpdate, h]; simp; split <;> rfl
  · intro h; simp only [hookUpdate, h]; simp
  · intro h1 h2 h3; simp only [hookUpdate, if_neg h1, if_neg h2, if_neg h3]

theorem c1_hook_overwrites_any_status_witness :
    (hookUpdate (initProgress "s")
      { status := some "downloading", total_bytes := none, total_bytes_estimate := none,
        downloaded_bytes := none, speed_str := none, eta_str := none, filename := none }).status
      = "downloading"
    ∧ hookUpdate (initProgress "s")
      { status := some "queued", total_bytes := none, total_bytes_estimate := none,
        downloaded_bytes := none, speed_str := none, eta_str := none, filename := none }
      = initProgress "s" :=
  ⟨(c1_hook_overwrites_any_status _ _).1 (by decide),
   (c1_hook_overwrites_any_status _ _).2.2.2 (by decide) (by decide) (by decide)⟩

/-- Every classified error message is non-empty. -/
lemma classifyMsg_ne_empty (e : String) : classifyMsg e ≠ "" := by
  unfold classifyMsg
  repeat' split
  · decide
  · decide
  · decide
  · decide
  · intro h
    have h2 := congrArg String.length h
    rw [String.length_append] at h2
    have h3 : ("Download failed: ").length = 17 := by decide
    have h4 : ("" : String).length = 0 := by decide
    rw [h3, h4] at h2
    omega

lemma classify_progress (e : String) (p : DownloadProgress) :
    (classify e p).progress = p.progress := rfl

lemma resolveCandidates_progress (t : String) (st : Storage) (p : DownloadProgress) :
    (resolveCandidates t st p).progress = p.progress := by
  unfold resolveCandidates; split <;> rfl

lemma resolveScan_progress (info : ExtractInfo) (st : Storage) (p : DownloadProgress) :
    (resolveScan info st p).progress = p.progress := by
  unfold resolveScan
  split
  · split <;> rfl
  · rfl

/-- C2: for every prior record state, every library behaviour (any event
sequence followed by a normal return or a raised exception) and every
storage state, the Download Worker — a total function, so nothing escapes
to its caller — leaves the record either completed, or in terminal error
state whose message is produced by the classifier and is non-empty. -/
theorem c2_worker_never_raises (prog : DownloadProgress) (run : LibraryRun) (st : Storage) :
    (downloadJobRecord prog run st).status = "completed"
    ∨ ((downloadJobRecord prog run st).status = "error"
       ∧ ∃ e, (downloadJobRecord prog run st).error = some (classifyMsg e) ∧ classifyMsg e ≠ "") := by
  obtain ⟨events, outcome, target⟩ := run
  cases outcome with
  | error e =>
    right
    exact ⟨rfl, e, rfl, classifyMsg_ne_empty e⟩
  | ok info =>
    dsimp only [downloadJobRecord]
    split
    · right
      exact ⟨rfl, "Downloaded file not found", rfl, classifyMsg_ne_empty _⟩
    · left; rfl

/-- C4 amended: when the library call returns normally, no hook event has
recorded a file path, the reported output path and all probed extension
substitutions are absent from storage, and no file in the download
directory matches the job's title or identifier, the job ends in status
"error" with message "Download failed: Downloaded file not found" (the
worker's generic classification prefixes the internal marker). -/
theorem c4_file_not_found_classified (prog : DownloadProgress) (run : LibraryRun)
    (st : Storage) (info : ExtractInfo) (hok : run.outcome = Except.ok info)
    (hfp : (run.events.foldl hookUpdate { prog with status := "starting" }).filepath = "")
    (hcand : ∀ c ∈ candidates run.target, st.existing.contains c = false)
    (hscan : ∀ f ∈ st.dirFiles, scanMatch info f = false) :
    (downloadJobRecord prog run st).status = "error"
    ∧ (downloadJobRecord prog run st).error = some "Download failed: Downloaded file not found" := by
  have hmsg : classifyMsg "Downloaded file not found" = "Download failed: Downloaded file not found" := by
    decide
  obtain ⟨events, outcome, target⟩ := run
  dsimp only at hok hfp hcand
  subst hok
  dsimp only [downloadJobRecord]
  have hc : resolveCandidates target st (events.foldl hookUpdate { prog with status := "starting" })
      = events.foldl hookUpdate { prog with status := "starting" } := by
    unfold resolveCandidates
    rw [List.find?_eq_none.mpr (fun c hcc => by simp only [hcand c hcc]; exact Bool.false_ne_true)]
  have hs : resolveScan info st (events.foldl hookUpdate { prog with status := "starting" })
      = events.foldl hookUpdate { prog with status := "starting" } := by
    unfold resolveScan
    rw [if_pos hfp, List.find?_eq_none.mpr (fun f hf => by simp only [hscan f hf]; exact Bool.false_ne_true)]
  rw [hc, hs, if_pos hfp]
  exact ⟨rfl, by simp [classify, hmsg]⟩

theorem c4_file_not_found_classified_witness :
    (downloadJobRecord (initProgress "s")
      { events := [], outcome := Except.ok { title := some "vid", id := some "abc" },
        target := "t.webm" }
      { existing := [], dirFiles := [], dir := "d" }).status = "error"
    ∧ (downloadJobRecord (initProgress "s")
      { events := [], outcome := Except.ok { title := some "vid", id := some "abc" },
        target := "t.webm" }
      { existing := [], dirFiles := [], dir := "d" }).error
      = some "Download failed: Downloaded file not found" :=
  c4_file_not_found_classified _ _ _ _ rfl (by decide) (by decide) (by decide)

/-- C4 counterexample: two concrete runs refute the claim as stated.  In
the first, the library reports "t.webm" which does not exist on storage,
no substitution exists and the directory is empty, yet a "finished" hook
event recorded the reported path, so the job ends "completed" — a false
success where the claim demands "error".  In the second (no events), the
job does end in error, but the stored message is
"Download failed: Downloaded file not found", not the claimed verbatim
"Downloaded file not found". -/
theorem c4_counterexample :
    (downloadJobRecord (initProgress "s")
      { events := [{ status := some "finished", total_bytes := none, total_bytes_estimate := none,
                     downloaded_bytes := none, speed_str := none, eta_str := none,
                     filename := some "t.webm" }],
        outcome := Except.ok { title := some "vid", id := some "abc" }, target := "t.webm" }
      { existing := [], dirFiles := [], dir := "d" }).status = "completed"
    ∧ (downloadJobRecord (initProgress "s")
        { events := [], outcome := Except.ok { title := some "vid", id := some "abc" },
          target := "t.webm" }
        { existing := [], dirFiles := [], dir := "d" }).status = "error"
    ∧ (downloadJobRecord (initProgress "s")
        { events := [], outcome := Except.ok { title := some "vid", id := some "abc" },
          target := "t.webm" }
        { existing := [], dirFiles := [], dir := "d" }).error
      ≠ some "Downloaded file not found" := by decide

/-- C5 counterexample: a job whose only hook event reports 500 of 1000
bytes and whose file is then found completes with progress still 50: the
worker never forces progress to 100 on completion, refuting the claim that
progress reads 100 whenever status is completed. -/
theorem c5_counterexample :
    (downloadJobRecord (initProgress "s")
      { events := [{ status := some "downloading", total_bytes := some 1000,
                     total_bytes_estimate := none, downloaded_bytes := some 500,
                     speed_str := none, eta_str := none, filename := some "t.mp4" }],
        outcome := Except.ok { title := some "vid", id := some "abc" }, target := "t.mp4" }
      { existing := ["t.mp4"], dirFiles := [], dir := "d" }).status = "completed"
    ∧ (downloadJobRecord (initProgress "s")
      { events := [{ status := some "downloading", total_bytes := some 1000,
                     total_bytes_estimate := none, downloaded_bytes := some 500,
                     speed_str := none, eta_str := none, filename := some "t.mp4" }],
        outcome := Except.ok { title := some "vid", id := some "abc" }, target := "t.mp4" }
      { existing := ["t.mp4"], dirFiles := [], dir := "d" }).progress = 50
    ∧ (50 : ℚ) ≠ 100 := by
  refine ⟨by decide, ?_, by norm_num⟩
  have h : (downloadJobRecord (initProgress "s")
      { events := [{ status := some "downloading", total_bytes := some 1000,
                     total_bytes_estimate := none, downloaded_bytes := some 500,
                     speed_str := none, eta_str := none, filename := some "t.mp4" }],
        outcome := Except.ok { title := some "vid", id := some "abc" }, target := "t.mp4" }
      { existing := ["t.mp4"], dirFiles := [], dir := "d" }).progress
      = ((500 : ℤ) : ℚ) / ((1000 : ℤ) : ℚ) * 100 := rfl
  rw [h]; norm_num

lemma hookUpdate_finished_progress (p : DownloadProgress) (ev : HookEvent)
    (h : ev.status.getD "" = "finished") : (hookUpdate p ev).progress = 100 := by
  simp only [hookUpdate, h]
  simp
  split <;> rfl

lemma foldl_hookUpdate_last_finished (l : List HookEvent) (ev : HookEvent) (p : DownloadProgress)
    (h : ev.status.getD "" = "finished") :
    ((l ++ [ev]).foldl hookUpdate p).progress = 100 := by
  rw [List.foldl_append]
  simp only [List.foldl_cons, List.foldl_nil]
  exact hookUpdate_finished_progress _ _ h

/-- C5 amended: progress reads 100 on completion only because the last
"finished" hook event forces it there: whenever the run's event list ends
in a finished event, the final record's progress is 100 (whatever the
earlier fractional values were, and in whichever terminal state the job
ends); the worker itself never writes the progress field. -/
theorem c5_finished_event_forces_100 (prog : DownloadProgress) (run : LibraryRun) (st : Storage)
    (l : List HookEvent) (ev : HookEvent) (hev : run.events = l ++ [ev])
    (hfin : ev.status.getD "" = "finished") :
    (downloadJobRecord prog run st).progress = 100 := by
  obtain ⟨events, outcome, target⟩ := run
  dsimp only at hev
  subst hev
  cases outcome with
  | error e =>
    dsimp only [downloadJobRecord]
    rw [classify_progress]
    exact foldl_hookUpdate_last_finished _ _ _ hfin
  | ok info =>
    dsimp only [downloadJobRecord]
    split
    · rw [classify_progress, resolveScan_progress, resolveCandidates_progress]
      exact foldl_hookUpdate_last_finished _ _ _ hfin
    · dsimp only
      rw [resolveScan_progress, resolveCandidates_progress]
      exact foldl_hookUpdate_last_finished _ _ _ hfin

theorem c5_finished_event_forces_100_witness :
    (downloadJobRecord (initProgress "s")
      { events := [{ status := some "finished", total_bytes := none, total_bytes_estimate := none,
                     downloaded_bytes := none, speed_str := none, eta_str := none,
                     filename := some "t.webm" }],
        outcome := Except.ok { title := some "vid", id := some "abc" }, target := "t.webm" }
      { existing := [], dirFiles := [], dir := "d" }).progress = 100 :=
  c5_finished_event_forces_100 _ _ _ [] _ rfl (by decide)

lemma fmtLoop_nil (x : ℚ) : fmtLoop x [] = fmtOneDec x ++ " PB" := rfl

lemma fmtLoop_lt {x : ℚ} (h : x < 1024) (u : String) (us : List String) :
    fmtLoop x (u :: us) = fmtOneDec x ++ " " ++ u := by
  simp only [fmtLoop]; rw [if_pos h]

lemma fmtLoop_ge {x : ℚ} (h : ¬ x < 1024) (u : String) (us : List String) :
    fmtLoop x (u :: us) = fmtLoop (x / 1024) us := by
  simp only [fmtLoop]; rw [if_neg h]

/-- The one-decimal rendering always consists of an integer part, a point and
one digit. -/
lemma fmtOneDec_shape (x : ℚ) :
    ∃ a b : ℤ, fmtOneDec x = toString a ++ "." ++ toString b
      ∧ 0 ≤ b ∧ b < 10 ∧ (toString b).length = 1 := by
  refine ⟨pyRound1 x / 10, pyRound1 x % 10, rfl, ?_, ?_, ?_⟩
  · exact Int.emod_nonneg _ (by norm_num)
  · exact Int.emod_lt_of_pos _ (by norm_num)
  · have hb0 : 0 ≤ pyRound1 x % 10 := Int.emod_nonneg _ (by norm_num)
    have hb1 : pyRound1 x % 10 < 10 := Int.emod_lt_of_pos _ (by norm_num)
    generalize hg : pyRound1 x % 10 = b at hb0 hb1 ⊢
    interval_cases b <;> decide

/-- Rendering of an exact tenth. -/
lemma fmtOneDec_int (x : ℚ) (k : ℤ) (hk : 10 * x = (k : ℚ)) :
    fmtOneDec x = toString (k / 10) ++ "." ++ toString (k % 10) := by
  have hf : ⌊10 * x⌋ = k := by rw [hk]; exact Int.floor_intCast k
  have hfr : 10 * x - ((⌊10 * x⌋ : ℤ) : ℚ) < 1 / 2 := by rw [hf, hk]; norm_num
  unfold fmtOneDec pyRound1
  rw [if_pos hfr, hf]

lemma fmt_bytes_some (m : ℤ) (h : ¬ m ≤ 0) :
    fmt_bytes (some m) = fmtLoop (m : ℚ) ["B", "KB", "MB", "GB", "TB"] := by
  simp [fmt_bytes, h]

/-- For every positive byte count the formatter output is an integer part,
a point, exactly one decimal digit, a space, and the unit of the count's
binary magnitude range. -/
lemma fmt_bytes_shape (m : ℤ) (h : 0 < m) :
    ∃ a b : ℤ, fmt_bytes (some m) = toString a ++ "." ++ toString b ++ " " ++ unitFor m
      ∧ 0 ≤ b ∧ b < 10 ∧ (toString b).length = 1 := by
  have hfb := fmt_bytes_some m (by omega)
  by_cases h1 : m < 1024
  · have s1 : (m : ℚ) < 1024 := by exact_mod_cast h1
    have hu : unitFor m = "B" := by simp [unitFor, h1]
    obtain ⟨a, b, he, hb0, hb1, hl⟩ := fmtOneDec_shape (m : ℚ)
    exact ⟨a, b, by rw [hfb, fmtLoop_lt s1, he, hu], hb0, hb1, hl⟩
  · have q1 : ((1024 : ℚ)) ≤ (m : ℚ) := by exact_mod_cast not_lt.mp h1
    have s1 : ¬ (m : ℚ) < 1024 := not_lt.mpr q1
    by_cases h2 : m < 1048576
    · have q2 : (m : ℚ) < 1048576 := by exact_mod_cast h2
      have s2 : (m : ℚ) / 1024 < 1024 := by
        rw [div_lt_iff₀ (by norm_num : (0 : ℚ) < 1024)]
        calc (m : ℚ) < 1048576 := q2
        _ = 1024 * 1024 := by norm_num
      have hu : unitFor m = "KB" := by simp [unitFor, h1, h2]
      obtain ⟨a, b, he, hb0, hb1, hl⟩ := fmtOneDec_shape ((m : ℚ) / 1024)
      exact ⟨a, b, by rw [hfb, fmtLoop_ge s1, fmtLoop_lt s2, he, hu], hb0, hb1, hl⟩
    · have q2 : (1048576 : ℚ) ≤ (m : ℚ) := by exact_mod_cast not_lt.mp h2
      have s2 : ¬ (m : ℚ) / 1024 < 1024 := by
        rw [not_lt, le_div_iff₀ (by norm_num : (0 : ℚ) < 1024)]
        calc (1024 : ℚ) * 1024 = 1048576 := by norm_num
        _ ≤ (m : ℚ) := q2
      by_cases h3 : m < 1073741824
      · have q3 : (m : ℚ) < 1073741824 := by exact_mod_cast h3
        have s3 : (m : ℚ) / (1024 * 1024) < 1024 := by
          rw [div_lt_iff₀ (by norm_num : (0 : ℚ) < 1024 * 1024)]
          calc (m : ℚ) < 1073741824 := q3
          _ = 1024 * (1024 * 1024) := by norm_num
        have hu : unitFor m = "MB" := by simp [unitFor, h1, h2, h3]
        obtain ⟨a, b, he, hb0, hb1, hl⟩ := fmtOneDec_shape ((m : ℚ) / (1024 * 1024))
        exact ⟨a, b, by rw [hfb, fmtLoop_ge s1, fmtLoop_ge s2, div_div, fmtLoop_lt s3, he, hu],
          hb0, hb1, hl⟩
      · have q3 : (1073741824 : ℚ) ≤ (m : ℚ) := by exact_mod_cast not_lt.mp h3
        have s3 : ¬ (m : ℚ) / (1024 * 1024) < 1024 := by
          rw [not_lt, le_div_iff₀ (by norm_num : (0 : ℚ) < 1024 * 1024)]
          calc (1024 : ℚ) * (1024 * 1024) = 1073741824 := by norm_num
          _ ≤ (m : ℚ) := q3
        by_cases h4 : m < 1099511627776
        · have q4 : (m : ℚ) < 1099511627776 := by exact_mod_cast h4
          have s4 : (m : ℚ) / (1024 * 1024 * 1024) < 1024 := by
            rw [div_lt_iff₀ (by norm_num : (0 : ℚ) < 1024 * 1024 * 1024)]
            calc (m : ℚ) < 1099511627776 := q4
            _ = 1024 * (1024 * 1024 * 1024) := by norm_num
          have hu : unitFor m = "GB" := by simp [unitFor, h1, h2, h3, h4]
          obtain ⟨a, b, he, hb0, hb1, hl⟩ := fmtOneDec_shape ((m : ℚ) / (1024 * 1024 * 1024))
          exact ⟨a, b, by
            rw [hfb, fmtLoop_ge s1, fmtLoop_ge s2, div_div, fmtLoop_ge s3, div_div,
              fmtLoop_lt s4, he, hu], hb0, hb1, hl⟩
        · have q4 : (1099511627776 : ℚ) ≤ (m : ℚ) := by exact_mod_cast not_lt.mp h4
          have s4 : ¬ (m : ℚ) / (1024 * 1024 * 1024) < 1024 := by
            rw [not_lt, le_div_iff₀ (by norm_num : (0 : ℚ) < 1024 * 1024 * 1024)]
            calc (1024 : ℚ) * (1024 * 1024 * 1024) = 1099511627776 := by norm_num
            _ ≤ (m : ℚ) := q4
          by_cases h5 : m < 1125899906842624
          · have q5 : (m : ℚ) < 1125899906842624 := by exact_mod_cast h5
            have s5 : (m : ℚ) / (1024 * 1024 * 1024 * 1024) < 1024 := by
              rw [div_lt_iff₀ (by norm_num : (0 : ℚ) < 1024 * 1024 * 1024 * 1024)]
              calc (m : ℚ) < 1125899906842624 := q5
              _ = 1024 * (1024 * 1024 * 1024 * 1024) := by norm_num
            have hu : unitFor m = "TB" := by simp [unitFor, h1, h2, h3, h4, h5]
            obtain ⟨a, b, he, hb0, hb1, hl⟩ :=
              fmtOneDec_shape ((m : ℚ) / (1024 * 1024 * 1024 * 1024))
            exact ⟨a, b, by
              rw [hfb, fmtLoop_ge s1, fmtLoop_ge s2, div_div, fmtLoop_ge s3, div_div,
                fmtLoop_ge s4, div_div, fmtLoop_lt s5, he, hu], hb0, hb1, hl⟩
          · have q5 : (1125899906842624 : ℚ) ≤ (m : ℚ) := by exact_mod_cast not_lt.mp h5
            have s5 : ¬ (m : ℚ) / (1024 * 1024 * 1024 * 1024) < 1024 := by
              rw [not_lt, le_div_iff₀ (by norm_num : (0 : ℚ) < 1024 * 1024 * 1024 * 1024)]
              calc (1024 : ℚ) * (1024 * 1024 * 1024 * 1024) = 1125899906842624 := by norm_num
              _ ≤ (m : ℚ) := q5
            have hu : unitFor m = "PB" := by simp [unitFor, h1, h2, h3, h4, h5]
            obtain ⟨a, b, he, hb0, hb1, hl⟩ :=
              fmtOneDec_shape ((m : ℚ) / (1024 * 1024 * 1024 * 1024 * 1024))
            exact ⟨a, b, by
              rw [hfb, fmtLoop_ge s1, fmtLoop_ge s2, div_div, fmtLoop_ge s3, div_div,
                fmtLoop_ge s4, div_div, fmtLoop_ge s5, div_div, fmtLoop_nil, he, hu,
                show (" PB" : String) = " " ++ "PB" from by decide, ← String.append_assoc],
              hb0, hb1, hl⟩

lemma fmt_bytes_1536 : fmt_bytes (some 1536) = "1.5 KB" := by
  have hfb := fmt_bytes_some 1536 (by norm_num)
  have hx1 : ¬ ((1536 : ℤ) : ℚ) < 1024 := by norm_num
  have hx2 : ((1536 : ℤ) : ℚ) / 1024 < 1024 := by norm_num
  rw [hfb, fmtLoop_ge hx1, fmtLoop_lt hx2,
    fmtOneDec_int _ 15 (by norm_num)]
  decide

lemma fmt_bytes_1048576 : fmt_bytes (some 1048576) = "1.0 MB" := by
  have hfb := fmt_bytes_some 1048576 (by norm_num)
  have hx1 : ¬ ((1048576 : ℤ) : ℚ) < 1024 := by norm_num
  have hx2 : ¬ ((1048576 : ℤ) : ℚ) / 1024 < 1024 := by norm_num
  have hx3 : ((1048576 : ℤ) : ℚ) / 1024 / 1024 < 1024 := by norm_num
  rw [hfb, fmtLoop_ge hx1, fmtLoop_ge hx2, fmtLoop_lt hx3,
    fmtOneDec_int _ 10 (by norm_num)]
  decide

/-- C6: the size formatter returns "N/A" exactly for null or non-positive
byte counts; for every positive count the output is an integer part, a
point, exactly one decimal digit, and the unit of the count's binary
(1024-based) magnitude range; in particular 1536 formats as "1.5 KB" and
1048576 as "1.0 MB". -/
theorem c6_fmt_bytes_spec (n : Option ℤ) :
    ((n = none ∨ ∃ m, n = some m ∧ m ≤ 0) → fmt_bytes n = "N/A")
    ∧ (∀ m : ℤ, n = some m → 0 < m →
        ∃ a b : ℤ, fmt_bytes n = toString a ++ "." ++ toString b ++ " " ++ unitFor m
          ∧ 0 ≤ b ∧ b < 10 ∧ (toString b).length = 1)
    ∧ fmt_bytes (some 1536) = "1.5 KB" ∧ fmt_bytes (some 1048576) = "1.0 MB" := by
  refine ⟨?_, ?_, fmt_bytes_1536, fmt_bytes_1048576⟩
  · rintro (rfl | ⟨m, rfl, hm⟩)
    · rfl
    · simp [fmt_bytes, hm]
  · rintro m rfl hm
    exact fmt_bytes_shape m hm

theorem c6_fmt_bytes_spec_witness :
    fmt_bytes none = "N/A" ∧ fmt_bytes (some 0) = "N/A"
    ∧ ∃ a b : ℤ, fmt_bytes (some 1536) = toString a ++ "." ++ toString b ++ " " ++ unitFor 1536
        ∧ 0 ≤ b ∧ b < 10 ∧ (toString b).length = 1 :=
  ⟨(c6_fmt_bytes_spec none).1 (Or.inl rfl),
   (c6_fmt_bytes_spec (some 0)).1 (Or.inr ⟨0, rfl, le_refl 0⟩),
   (c6_fmt_bytes_spec (some 1536)).2.1 1536 rfl (by norm_num)⟩
